import Mathlib

/-!
Verification of the react-three-fiber reconciler/event-layer against its
natural-language specification.  The definitions below are a shallow
embedding of the repository's source:

* the per-frame subscription list of the `Canvas` component
  (`state.subscribe` in the canvas source) and the test renderer's
  `advanceFrames` loop;
* the pointer/raycast event layer of the `Canvas` component
  (`handleIntersects`, `handlePointer`, `handlePointerMove`,
  `handlePointerCancel`, the capture handlers, and the DOM bindings);
* the mount-readiness latch of `ResizeContainer`;
* the `unmount` disposal pass of the test renderer;
* the context-guarded hooks of `hooks.ts`.

Callback references and object identities (three.js uuids) are modelled
as natural numbers; JS reference equality (`===`/`!==`) becomes equality
of those numbers.  Event handlers are side-effecting JS functions; what
the verification needs of a handler is only whether it calls the
stop-propagation capability it is handed, so a registered handler is
modelled as the `Bool` saying whether it stops propagation, and the
result of processing an event is the ordered log of handler invocations
(object uuid, event kind).
-/

/-! ### Frame scheduler: subscribe / unsubscribe / advanceFrames

From the canvas source:
`subscribe: (fn, main) => { state.current.subscribers.push(fn);
 return () => (state.current.subscribers =
   state.current.subscribers.filter(s => s !== fn)) }`
The second argument (`main` / priority) is not consulted.  Callbacks are
modelled by their reference identity as a `Nat`.
-/

def subscribe (subs : List Nat) (fn : Nat) (_priority : Nat) : List Nat :=
  subs ++ [fn]

def unsubscribe (subs : List Nat) (fn : Nat) : List Nat :=
  subs.filter (fun s => s != fn)

/-- From the test renderer's `advanceFrames`: it iterates
`storeSubscribers.forEach(subscriber => { for (let i = 0; i < frames; i++)
  subscriber.ref.current(state, delta) })`, i.e. each subscriber runs all
requested frames before the next subscriber starts.  The result is the
invocation log (the delta argument does not affect ordering). -/
def advanceFrames (subs : List Nat) (frames : Nat) : List Nat :=
  match subs with
  | [] => []
  | s :: t => List.replicate frames s ++ advanceFrames t frames

/-- Folding a list of (callback, priority) subscriptions through `subscribe`. -/
def subscribeAll (fs : List (Nat × Nat)) : List Nat :=
  fs.foldl (fun acc fp => subscribe acc fp.1 fp.2) []

theorem subscribeAll_eq (fs : List (Nat × Nat)) :
    subscribeAll fs = fs.map (fun fp => fp.1) := by
  have general : ∀ (fs : List (Nat × Nat)) (acc : List Nat),
      fs.foldl (fun acc fp => subscribe acc fp.1 fp.2) acc
        = acc ++ fs.map (fun fp => fp.1) := by
    intro fs
    induction fs with
    | nil => intro acc; simp
    | cons p t ih =>
        intro acc
        rw [List.foldl_cons, ih (subscribe acc p.1 p.2)]
        simp [subscribe]
  simpa [subscribeAll] using general fs []

theorem advanceFrames_one (subs : List Nat) : advanceFrames subs 1 = subs := by
  induction subs with
  | nil => rfl
  | cons s t ih => simp [advanceFrames, ih, List.replicate]

/-- The priorities used in the counterexample: callback 1 subscribes with
priority 2, callback 2 subscribes with priority 1. -/
def examplePriority (fn : Nat) : Nat := if fn = 1 then 2 else 1

/-- C2 counterexample: subscribing callback 1 with priority 2 and then
callback 2 with priority 1 produces the subscriber list [1, 2]; one tick
invokes them in that order, so the priorities along the invocation order
are [2, 1], which is not non-decreasing.  `subscribe` ignores the
priority argument entirely (it just pushes), so "subscribers fire in
non-decreasing priority order" is false on the code. -/
theorem c2_counterexample :
    subscribe (subscribe [] 1 2) 2 1 = [1, 2]
    ∧ advanceFrames (subscribe (subscribe [] 1 2) 2 1) 1 = [1, 2]
    ∧ (advanceFrames (subscribe (subscribe [] 1 2) 2 1) 1).map examplePriority
        = [2, 1]
    ∧ ¬ List.Pairwise (fun p q => p ≤ q)
        ((advanceFrames (subscribe (subscribe [] 1 2) 2 1) 1).map examplePriority) := by
  refine ⟨rfl, rfl, rfl, ?_⟩
  decide

/-- C2 (amended): the subscriber list records callbacks in subscription
order and the priority argument has no effect on it, so a tick invokes
callbacks exactly in subscription order, whatever priorities were passed
(in particular, equal priorities trivially preserve subscription order). -/
theorem c2_amended (fs : List (Nat × Nat)) (fn p q : Nat) :
    subscribeAll fs = fs.map (fun fp => fp.1)
    ∧ subscribe (subscribeAll fs) fn p = subscribe (subscribeAll fs) fn q
    ∧ advanceFrames (subscribeAll fs) 1 = fs.map (fun fp => fp.1) := by
  refine ⟨subscribeAll_eq fs, rfl, ?_⟩
  rw [advanceFrames_one, subscribeAll_eq]

/-- C10: subscribing a fresh callback reference and then running the
returned unsubscribe restores the original list; and unsubscribe removes
by reference identity with `filter(s => s !== fn)`, so every occurrence
of that reference is removed. -/
theorem c10_subscribe_roundtrip (L M : List Nat) (f p : Nat) (hf : f ∉ L) :
    unsubscribe (subscribe L f p) f = L ∧ f ∉ unsubscribe M f := by
  constructor
  · unfold subscribe unsubscribe
    rw [List.filter_append]
    have h1 : L.filter (fun s => s != f) = L := by
      apply List.filter_eq_self.mpr
      intro a ha
      simp only [bne_iff_ne, ne_eq]
      intro heq
      exact hf (heq ▸ ha)
    have h2 : [f].filter (fun s => s != f) = [] := by simp
    rw [h1, h2, List.append_nil]
  · intro hmem
    have := List.of_mem_filter hmem
    simp at this

theorem c10_witness :
    (2 ∉ [5, 7] ∧
      unsubscribe (subscribe [5, 7] 2 0) 2 = [5, 7] ∧ 2 ∉ unsubscribe [2, 9, 2] 2) := by
  refine ⟨by decide, c10_subscribe_roundtrip [5, 7] [2, 9, 2] 2 0 (by decide)⟩

/-! ### Pointer/raycast event layer

Data model of the `Canvas` event code.  An interactive object carries a
`__handlers` table keyed by event kind; a raycast hit pairs an object
with its distance from the camera.  A registered handler is modelled by
the `Bool` telling whether it calls the stop-propagation capability the
dispatch loop hands it (`stopPropagation: () => (stopped.current = true)`).
-/

/-- The `__handlers` table of an interactive object.  `pointerMove`,
`pointerOver` and `pointerOut` are the kinds `handlePointerMove` and
`handlePointerCancel` consult directly; `named` holds the handlers
`handlePointer(name)` looks up dynamically (click, wheel, pointerDown,
pointerUp). -/
structure Handlers where
  pointerMove : Option Bool
  pointerOver : Option Bool
  pointerOut : Option Bool
  named : List (String × Bool)
deriving DecidableEq, Repr

/-- A scene object: its three.js uuid and its optional `__handlers`
table (objects without one are filtered out of the hit set). -/
structure Obj where
  uuid : Nat
  handlers : Option Handlers
deriving DecidableEq, Repr

/-- A raycast intersection: `{object, distance}` as produced by
`raycaster.intersectObjects`. -/
structure Hit where
  object : Obj
  distance : Nat
deriving DecidableEq, Repr

def lookupNamed (tbl : List (String × Bool)) (name : String) : Option Bool :=
  match tbl with
  | [] => none
  | p :: t => if p.1 = name then some p.2 else lookupNamed t name

instance : IsTotal Hit (fun a b => a.distance ≤ b.distance) :=
  ⟨fun a b => Nat.le_total a.distance b.distance⟩

instance : IsTrans Hit (fun a b => a.distance ≤ b.distance) :=
  ⟨fun _ _ _ hab hbc => Nat.le_trans hab hbc⟩

/-- The `intersect` helper:
`raycaster.intersectObjects(scene.__interaction, true).filter(h => h.object.__handlers)`.
`intersectObjects` is the graphics engine's ray-intersection primitive,
whose documented contract (quoted by the spec) returns hits sorted by
ascending distance from the camera; the geometric candidates are taken
as input and the sort is modelled by insertion sort on distance. -/
def intersect (cands : List Hit) : List Hit :=
  (List.insertionSort (fun a b => a.distance ≤ b.distance) cands).filter
    (fun h => h.object.handlers.isSome)

/-- A hover-map entry (`hovered.current[uuid] = data`): the object and
the final value of the `stopped.current` flag of the hit record that was
stored when the entry was booked (the stored record shares that mutable
cell with the dispatch loop of the booking pointer-move). -/
structure HoverEntry where
  obj : Obj
  stopped : Bool
deriving DecidableEq, Repr

/-- The canvas state the event layer reads and writes: the readiness
flag, the captured hit set (`state.current.captured`, `undefined` or an
array) and the hover map (in insertion order, keyed by uuid). -/
structure CanvasState where
  ready : Bool
  captured : Option (List Hit)
  hovered : List HoverEntry
deriving DecidableEq, Repr

/-- Result of processing one DOM event: the new canvas state, the
ordered log of handler invocations (uuid, event kind) and the number of
raycasts (`intersectObjects` calls) performed. -/
structure EvtOut where
  state : CanvasState
  fired : List (Nat × String)
  casts : Nat
deriving DecidableEq, Repr

/-- The hit-selection step at the top of `handleIntersects`:
`state.current.captured && event.type !== 'click' && event.type !== 'wheel'
  ? state.current.captured : intersect(event, false)`.
Returns the hits together with the number of raycasts performed. -/
def selectHits (st : CanvasState) (etype : String) (cands : List Hit) :
    List Hit × Nat :=
  match st.captured with
  | some cap =>
      if etype ≠ "click" ∧ etype ≠ "wheel" then (cap, 0) else (intersect cands, 1)
  | none => (intersect cands, 1)

/-- The dispatch loop of `handleIntersects`: for each hit a fresh
`stopped` flag is allocated, the callback runs with a stop-propagation
capability over that flag, and the loop breaks as soon as the flag is
set.  The callback is modelled as a state transformer returning the flag
value after it ran. -/
def dispatchLoop {σ : Type} (f : Hit → σ → σ × Bool) : List Hit → σ → σ
  | [], s => s
  | h :: t, s =>
      let r := f h s
      if r.2 then r.1 else dispatchLoop f t r.1

/-- The callback `handlePointer(name)` passes to `handleIntersects`:
`const handlers = object.__handlers; if (handlers[name]) handlers[name](data)`.
The state is the invocation log. -/
def pointerFn (name : String) (hit : Hit) (fired : List (Nat × String)) :
    List (Nat × String) × Bool :=
  match hit.object.handlers with
  | none => (fired, false)
  | some hs =>
      match lookupNamed hs.named name with
      | some stops => (fired ++ [(hit.object.uuid, name)], stops)
      | none => (fired, false)

/-- The invocation log `handleIntersects` produces for a `handlePointer`
style callback over a given hit list. -/
def firedByDispatch (name : String) (hits : List Hit) : List (Nat × String) :=
  dispatchLoop (pointerFn name) hits []

/-- Whether the handler registered under `name` on this hit exists and
flags the event as stopped when invoked. -/
def stopsOn (name : String) (h : Hit) : Bool :=
  match h.object.handlers with
  | none => false
  | some hs => (lookupNamed hs.named name).getD false

/-- The log entry the `name` handler of a hit contributes when reached:
`some (uuid, name)` when the handler exists, `none` otherwise. -/
def fireOf (name : String) (h : Hit) : Option (Nat × String) :=
  match h.object.handlers with
  | none => none
  | some hs =>
      match lookupNamed hs.named name with
      | some _ => some (h.object.uuid, name)
      | none => none

/-- `handlePointer(name)`: returns immediately unless `state.current.ready`,
otherwise selects the hits (captured set or fresh raycast) and runs the
dispatch loop.  It does not touch the hover map. -/
def handlePointer (name : String) (st : CanvasState) (cands : List Hit) : EvtOut :=
  if st.ready then
    let sel := selectHits st name cands
    ⟨st, dispatchLoop (pointerFn name) sel.1 [], sel.2⟩
  else ⟨st, [], 0⟩

/-- `hovered.current[uuid]` lookup. -/
def findEntry (hovered : List HoverEntry) (u : Nat) : Option HoverEntry :=
  hovered.find? (fun e => e.obj.uuid == u)

/-- The synthetic `pointerout` invocation an entry contributes when its
object leaves hover: fired only `if (data.object.__handlers.pointerOut)`. -/
def outFire (e : HoverEntry) : Option (Nat × String) :=
  match e.obj.handlers with
  | none => none
  | some hs =>
      match hs.pointerOut with
      | some _ => some (e.obj.uuid, "pointerout")
      | none => none

/-- Accumulator of the pointer-move dispatch: the hover map and the
invocation log. -/
structure MoveAcc where
  hovered : List HoverEntry
  fired : List (Nat × String)
deriving DecidableEq, Repr

/-- The callback `handlePointerMove` passes to `handleIntersects`.
Per hit: call `handlers.pointerMove` if present; then, if the object has
a `pointerOver` handler: if it is not in the hover map, book it (the
stored record shares the loop's `stopped` cell, so the stored flag ends
up `true` iff the move or over handler stopped propagation) and fire
`pointerover`; if it is in the map with its stored `stopped` flag set,
call `stopPropagation()` on the current event and purge every *other*
hover entry, firing its `pointerout` (when it has that handler) and
deleting it. -/
def moveFn (hit : Hit) (acc : MoveAcc) : MoveAcc × Bool :=
  match hit.object.handlers with
  | none => (acc, false)
  | some hs =>
      let mstop := hs.pointerMove.getD false
      let acc1 : MoveAcc :=
        match hs.pointerMove with
        | some _ => ⟨acc.hovered, acc.fired ++ [(hit.object.uuid, "pointermove")]⟩
        | none => acc
      match hs.pointerOver with
      | none => (acc1, mstop)
      | some ostop =>
          match findEntry acc1.hovered hit.object.uuid with
          | none =>
              ({ hovered := acc1.hovered ++ [⟨hit.object, mstop || ostop⟩],
                 fired := acc1.fired ++ [(hit.object.uuid, "pointerover")] },
               mstop || ostop)
          | some e =>
              if e.stopped then
                ({ hovered := acc1.hovered.filter
                     (fun k => k.obj.uuid == hit.object.uuid),
                   fired := acc1.fired ++
                     ((acc1.hovered.filter
                        (fun k => k.obj.uuid != hit.object.uuid)).filterMap outFire) },
                 true)
              else (acc1, mstop)

/-- The unhover pass of `handlePointerCancel`: for every hover entry,
`if (!hits.length || !hits.find(i => i.object === data.object))` fire
its `pointerout` (when registered) and delete it, otherwise keep it.
Returns (fired log, surviving hover map), both in map order. -/
def cancelSweep (hits : List Hit) : List HoverEntry → List (Nat × String) × List HoverEntry
  | [] => ([], [])
  | e :: t =>
      let rest := cancelSweep hits t
      if hits.isEmpty || !(hits.any (fun h => h.object.uuid == e.obj.uuid)) then
        ((outFire e).toList ++ rest.1, rest.2)
      else (rest.1, e :: rest.2)

/-- `handlePointerMove`: returns immediately unless ready; otherwise
dispatches `moveFn` over the selected hits and then runs the unhover
pass with the full hit list (`handlePointerCancel(event, hits)`). -/
def handlePointerMove (st : CanvasState) (cands : List Hit) : EvtOut :=
  if st.ready then
    let sel := selectHits st "pointermove" cands
    let ms := dispatchLoop moveFn sel.1 ⟨st.hovered, []⟩
    let c := cancelSweep sel.1 ms.hovered
    ⟨{ st with hovered := c.2 }, ms.fired ++ c.1, sel.2⟩
  else ⟨st, [], 0⟩

/-- The `onPointerLeave` binding:
`event => handlePointerCancel(event, [])` — an explicitly empty hit set,
no raycast. -/
def handlePointerLeave (st : CanvasState) : EvtOut :=
  let c := cancelSweep [] st.hovered
  ⟨{ st with hovered := c.2 }, c.1, 0⟩

/-- The `onGotPointerCapture` binding:
`event => (state.current.captured = intersect(event, false))` — raycasts
(without re-preparing the ray) and stores the hit set; no ready guard. -/
def handleGotPointerCapture (st : CanvasState) (cands : List Hit) : EvtOut :=
  ⟨{ st with captured := some (intersect cands) }, [], 1⟩

/-- The `onLostPointerCapture` binding:
`event => ((state.current.captured = undefined), handlePointerCancel(event))`.
With no hit list supplied, `handlePointerCancel` recomputes one through
`handleIntersects` with a no-op callback (captured was just cleared, so
this raycasts), then runs the unhover pass. -/
def handleLostPointerCapture (st : CanvasState) (cands : List Hit) : EvtOut :=
  let st1 : CanvasState := { st with captured := none }
  let sel := selectHits st1 "lostpointercapture" cands
  let c := cancelSweep sel.1 st1.hovered
  ⟨{ st1 with hovered := c.2 }, c.1, sel.2⟩

/-- The DOM events the canvas element binds, with the geometric raycast
candidates an event would produce.  `disc name` covers the
`handlePointer(name)` bindings (click, wheel, pointerDown, pointerUp);
`setReady` is the `IsReady` activation flipping the readiness flag. -/
inductive Evt where
  | disc (name : String) (cands : List Hit)
  | move (cands : List Hit)
  | leave
  | gotCapture (cands : List Hit)
  | lostCapture (cands : List Hit)
  | setReady

def isCaptureEvt : Evt → Bool
  | .gotCapture _ => true
  | .lostCapture _ => true
  | _ => false

def applyEvt (st : CanvasState) : Evt → EvtOut
  | .disc name cands => handlePointer name st cands
  | .move cands => handlePointerMove st cands
  | .leave => handlePointerLeave st
  | .gotCapture cands => handleGotPointerCapture st cands
  | .lostCapture cands => handleLostPointerCapture st cands
  | .setReady => ⟨{ st with ready := true }, [], 0⟩

/-- The canvas state at mount: not ready, no capture, empty hover map. -/
def initState : CanvasState := ⟨false, none, []⟩

/-- States the event layer can reach from mount. -/
inductive Reach : CanvasState → Prop where
  | init : Reach initState
  | step (st : CanvasState) (e : Evt) : Reach st → Reach (applyEvt st e).state

/-! ### C1: hover semantics with stop-propagation -/

/-- The C1 scenario outcome.  Objects `A` (uuid `a`, nearer) and `B`
(uuid `b`, farther) both register `pointerOver`/`pointerOut`; `A`'s
`pointerOver` handler stops propagation (`B`'s behaviours are
arbitrary).  Starting from a ready canvas with an empty hover map, a
pointer move hitting both fires `pointerover` for `A` only and hovers
`A` only; a second pointer move hitting nothing fires `pointerout` for
`A` only and empties the hover map. -/
def C1Concl (a b dA dB : Nat) (sBover sBout sAout : Bool) : Prop :=
  let A : Obj := ⟨a, some ⟨none, some true, some sAout, []⟩⟩
  let B : Obj := ⟨b, some ⟨none, some sBover, some sBout, []⟩⟩
  let r1 := handlePointerMove ⟨true, none, []⟩ [⟨B, dB⟩, ⟨A, dA⟩]
  let r2 := handlePointerMove r1.state []
  r1.fired = [(a, "pointerover")]
  ∧ r1.state.hovered.map (fun e => e.obj.uuid) = [a]
  ∧ r2.fired = [(a, "pointerout")]
  ∧ r2.state.hovered = []

/-- C1: with two overlapping interactive objects both registered for
pointerOver/pointerOut and the nearer one stopping propagation in its
pointerOver handler, a pointer move hitting both fires pointerOver for
the nearer object only and only it enters hover; a subsequent pointer
move with an empty hit set fires pointerOut for it alone and clears its
hover entry — the farther object's handlers are never invoked. -/
theorem c1_hover_stop_propagation (a b dA dB : Nat) (sBover sBout sAout : Bool)
    (hab : a ≠ b) (hd : dA < dB) : C1Concl a b dA dB sBover sBout sAout := by
  have hnle : ¬ (dB ≤ dA) := Nat.not_le.mpr hd
  refine ⟨?_, ?_, ?_, ?_⟩ <;>
    simp [C1Concl, handlePointerMove, selectHits, intersect, List.insertionSort,
      List.orderedInsert, hnle, dispatchLoop, moveFn, findEntry, cancelSweep,
      outFire]

theorem c1_witness :
    (3 ≠ 5 ∧ 1 < 2) ∧ C1Concl 3 5 1 2 false false false :=
  ⟨by decide, c1_hover_stop_propagation 3 5 1 2 false false false (by decide) (by decide)⟩

/-! ### C3: dispatch order and stop-propagation -/

theorem pointerFn_eq (name : String) (h : Hit) (fired : List (Nat × String)) :
    pointerFn name h fired = (fired ++ (fireOf name h).toList, stopsOn name h) := by
  unfold pointerFn fireOf stopsOn
  match hh : h.object.handlers with
  | none => simp
  | some hs =>
      match hl : lookupNamed hs.named name with
      | none => simp [hl]
      | some stops => simp [hl]

theorem dispatch_nostop (name : String) (l1 : List Hit) :
    ∀ (rest : List Hit) (acc : List (Nat × String)),
      (∀ x ∈ l1, stopsOn name x = false) →
      dispatchLoop (pointerFn name) (l1 ++ rest) acc
        = dispatchLoop (pointerFn name) rest (acc ++ l1.filterMap (fireOf name)) := by
  induction l1 with
  | nil => intro rest acc _; simp
  | cons x t ih =>
      intro rest acc hns
      have hx : stopsOn name x = false := hns x (by simp)
      have ht : ∀ y ∈ t, stopsOn name y = false := fun y hy => hns y (by simp [hy])
      show dispatchLoop (pointerFn name) (x :: (t ++ rest)) acc = _
      rw [dispatchLoop]
      simp only [pointerFn_eq, hx, if_neg Bool.false_ne_true]
      rw [ih rest (acc ++ (fireOf name x).toList) ht]
      cases hf : fireOf name x <;> simp [hf, List.filterMap_cons]

theorem dispatch_stop (name : String) (h : Hit) (l2 : List Hit)
    (acc : List (Nat × String)) (hstop : stopsOn name h = true) :
    dispatchLoop (pointerFn name) (h :: l2) acc = acc ++ (fireOf name h).toList := by
  rw [dispatchLoop]
  simp [pointerFn_eq, hstop]

/-- The C3 conclusion.  For a hit list `l1 ++ h :: l2` where no hit in
`l1` stops propagation and `h` does: the invocation log covers exactly
the hits up to and including `h`, in hit order, and equals the log the
truncated list would give (nothing farther than `h` is dispatched); the
hits whose handlers run are in ascending camera distance; and the hit
set a fresh raycast produces (`intersect`) is itself sorted by ascending
distance, so dispatch starts at the hit nearest the camera. -/
def C3Concl (name : String) (l1 l2 : List Hit) (h : Hit) (cands : List Hit) : Prop :=
  firedByDispatch name (l1 ++ h :: l2) = (l1 ++ [h]).filterMap (fireOf name)
  ∧ firedByDispatch name (l1 ++ h :: l2) = firedByDispatch name (l1 ++ [h])
  ∧ List.Pairwise (fun p q : Hit => p.distance ≤ q.distance)
      ((l1 ++ [h]).filter (fun k => (fireOf name k).isSome))
  ∧ List.Pairwise (fun p q : Hit => p.distance ≤ q.distance) (intersect cands)

/-- C3: handlers are dispatched nearest hit first (the raycast hit set
is sorted by ascending distance), every handler is reached with the
stop-propagation capability, and once an invoked handler flags the event
as stopped no handler of any farther hit is invoked. -/
theorem c3_dispatch_order (name : String) (l1 l2 : List Hit) (h : Hit)
    (cands : List Hit)
    (hsorted : List.Pairwise (fun p q : Hit => p.distance ≤ q.distance) (l1 ++ h :: l2))
    (hstop : stopsOn name h = true)
    (hns : ∀ x ∈ l1, stopsOn name x = false) :
    C3Concl name l1 l2 h cands := by
  have hprefix : (l1 ++ [h]).Sublist (l1 ++ h :: l2) :=
    (List.Sublist.cons₂ h (List.nil_sublist l2)).append_left l1
  have key : firedByDispatch name (l1 ++ h :: l2) = (l1 ++ [h]).filterMap (fireOf name) := by
    unfold firedByDispatch
    rw [dispatch_nostop name l1 (h :: l2) [] hns, dispatch_stop name h l2 _ hstop]
    cases hf : fireOf name h <;>
      simp [hf, List.filterMap_append, List.filterMap_cons]
  refine ⟨key, ?_, ?_, ?_⟩
  · rw [key]
    unfold firedByDispatch
    rw [dispatch_nostop name l1 [h] [] hns, dispatch_stop name h [] _ hstop]
    cases hf : fireOf name h <;>
      simp [hf, List.filterMap_append, List.filterMap_cons]
  · exact hsorted.sublist ((List.filter_sublist _).trans hprefix)
  · have hs := List.sorted_insertionSort (fun a b : Hit => a.distance ≤ b.distance) cands
    exact List.Pairwise.sublist (List.filter_sublist _) hs

/-! ### C5: pointer capture -/

/-- The C5 conclusion over a ready canvas whose capture is active
(`captured = some cap`).  A capture-aware event kind (anything but click
and wheel) dispatches against the stored captured hit set with no new
raycast (also for pointer-move); click and wheel re-cast even while the
capture is active; losing the capture clears the stored set. -/
def C5Concl (st : CanvasState) (cands cap : List Hit) (name : String) : Prop :=
  (handlePointer name st cands).casts = 0
  ∧ (handlePointer name st cands).fired = firedByDispatch name cap
  ∧ (handlePointerMove st cands).casts = 0
  ∧ (handlePointer "click" st cands).casts = 1
  ∧ (handlePointer "wheel" st cands).casts = 1
  ∧ (handleLostPointerCapture st cands).state.captured = none

/-- C5: while a pointer capture is active, capture-aware events reuse
the captured hit set and perform no raycast; click and wheel always
re-cast; lost pointer capture clears the captured set. -/
theorem c5_capture_reuse (st : CanvasState) (cands cap : List Hit) (name : String)
    (hready : st.ready = true) (hcap : st.captured = some cap)
    (hn1 : name ≠ "click") (hn2 : name ≠ "wheel") :
    C5Concl st cands cap name := by
  have hm1 : ("pointermove" : String) ≠ "click" := by decide
  have hm2 : ("pointermove" : String) ≠ "wheel" := by decide
  refine ⟨?_, ?_, ?_, ?_, ?_, ?_⟩ <;>
    simp [handlePointer, handlePointerMove, handleLostPointerCapture, selectHits,
      hready, hcap, hn1, hn2, hm1, hm2, firedByDispatch]

theorem c5_witness :
    ((⟨true, some [⟨⟨4, some ⟨none, none, none, [("pointerDown", false)]⟩⟩, 3⟩],
        []⟩ : CanvasState).ready = true
      ∧ (⟨true, some [⟨⟨4, some ⟨none, none, none, [("pointerDown", false)]⟩⟩, 3⟩],
          []⟩ : CanvasState).captured
        = some [⟨⟨4, some ⟨none, none, none, [("pointerDown", false)]⟩⟩, 3⟩]
      ∧ ("pointerDown" : String) ≠ "click" ∧ ("pointerDown" : String) ≠ "wheel")
    ∧ C5Concl
        ⟨true, some [⟨⟨4, some ⟨none, none, none, [("pointerDown", false)]⟩⟩, 3⟩], []⟩
        [⟨⟨9, some ⟨none, none, none, []⟩⟩, 1⟩]
        [⟨⟨4, some ⟨none, none, none, [("pointerDown", false)]⟩⟩, 3⟩]
        "pointerDown" :=
  ⟨⟨rfl, rfl, by decide, by decide⟩,
    c5_capture_reuse _ _ _ "pointerDown" rfl rfl (by decide) (by decide)⟩

/-! ### C6: hover teardown on empty hit set -/

theorem cancelSweep_nil_entries (hits : List Hit) : cancelSweep hits [] = ([], []) := rfl

theorem cancelSweep_empty_hits (hv : List HoverEntry) :
    (cancelSweep [] hv).2 = [] ∧ (cancelSweep [] hv).1 = hv.filterMap outFire := by
  induction hv with
  | nil => exact ⟨rfl, rfl⟩
  | cons e t ih =>
      rw [cancelSweep]
      simp only [List.isEmpty_nil, Bool.true_or, if_pos rfl]
      refine ⟨ih.1, ?_⟩
      rw [ih.2]
      cases hf : outFire e <;> simp [hf, List.filterMap_cons]

theorem outFire_uuid (e : HoverEntry) (u : Nat) (s : String) :
    (u, s) ∈ (outFire e).toList → u = e.obj.uuid := by
  unfold outFire
  rcases hh : e.obj.handlers with _ | hs <;> simp only [hh]
  · simp
  · rcases ho : hs.pointerOut with _ | b <;> simp only [ho]
    · simp
    · intro h
      simp at h
      exact h.1

theorem cancelSweep_fires_mem (hits : List Hit) (hv : List HoverEntry)
    (u : Nat) (s : String) :
    (u, s) ∈ (cancelSweep hits hv).1 → u ∈ hv.map (fun k => k.obj.uuid) := by
  induction hv with
  | nil => intro hmem; simp [cancelSweep_nil_entries] at hmem
  | cons e t ih =>
      intro hmem
      rw [cancelSweep] at hmem
      rw [List.map_cons]
      by_cases hc : (hits.isEmpty || !(hits.any (fun h => h.object.uuid == e.obj.uuid))) = true
      · rw [if_pos hc] at hmem
        rcases List.mem_append.mp hmem with hl | hr
        · rw [outFire_uuid e u s hl]
          exact List.mem_cons_self _ _
        · exact List.mem_cons_of_mem _ (ih hr)
      · rw [if_neg hc] at hmem
        exact List.mem_cons_of_mem _ (ih hmem)

theorem cancelSweep_keeps_hit (hits : List Hit) (hv : List HoverEntry) (e : HoverEntry)
    (he : e ∈ hv)
    (hin : hits.any (fun h => h.object.uuid == e.obj.uuid) = true) :
    e ∈ (cancelSweep hits hv).2 := by
  induction hv with
  | nil => simp at he
  | cons x t ih =>
      rw [cancelSweep]
      rcases List.mem_cons.mp he with rfl | ht
      · have hne : hits.isEmpty = false := by
          cases hits with
          | nil => simp at hin
          | cons _ _ => rfl
        rw [if_neg (by simp [hne, hin])]
        exact List.mem_cons_self _ _
      · by_cases hc : (hits.isEmpty || !(hits.any (fun h => h.object.uuid == x.obj.uuid))) = true
        · rw [if_pos hc]; exact ih ht
        · rw [if_neg hc]; exact List.mem_cons_of_mem x (ih ht)

/-- The C6 conclusion.  Over any hover map: processing an empty hit set
(as `onPointerLeave` does with its explicitly empty list) fires a
synthetic `pointerout` for exactly the hovered objects that registered a
pointerOut handler, in map order, and empties the hover map; while a
hovered entry whose object is present in the (non-empty) current hit set
is kept and receives no `pointerout`. -/
def C6Concl (hv : List HoverEntry) (hits : List Hit) (e : HoverEntry) : Prop :=
  (cancelSweep [] hv).2 = []
  ∧ (cancelSweep [] hv).1 = hv.filterMap outFire
  ∧ (handlePointerLeave ⟨true, none, hv⟩).state.hovered = []
  ∧ (handlePointerLeave ⟨true, none, hv⟩).fired = hv.filterMap outFire
  ∧ e ∈ (cancelSweep hits hv).2
  ∧ (e.obj.uuid, "pointerout") ∉ (cancelSweep hits hv).1

/-- C6: an empty hit set (in particular pointer-leave-canvas) tears down
the whole hover map, firing pointerOut for every hovered object that has
the handler; an object still present in the hit set keeps its hover
entry and receives no pointerOut. -/
theorem c6_hover_teardown (hv : List HoverEntry) (hits : List Hit) (e : HoverEntry)
    (he : e ∈ hv)
    (hin : hits.any (fun h => h.object.uuid == e.obj.uuid) = true)
    (hnodup : (hv.map (fun k => k.obj.uuid)).Nodup) :
    C6Concl hv hits e := by
  refine ⟨(cancelSweep_empty_hits hv).1, (cancelSweep_empty_hits hv).2, ?_, ?_, ?_, ?_⟩
  · simp [handlePointerLeave, (cancelSweep_empty_hits hv).1]
  · simp [handlePointerLeave, (cancelSweep_empty_hits hv).2]
  · exact cancelSweep_keeps_hit hits hv e he hin
  · have hne : hits.isEmpty = false := by
      cases hits with
      | nil => simp at hin
      | cons _ _ => rfl
    revert he hnodup
    induction hv with
    | nil =>
        intro _ _
        simp [cancelSweep_nil_entries]
    | cons x t ih =>
        intro he hnodup
        rw [cancelSweep]
        rw [List.map_cons, List.nodup_cons] at hnodup
        rcases List.mem_cons.mp he with rfl | ht
        · rw [if_neg (by simp [hne, hin])]
          intro hmem
          exact hnodup.1 (cancelSweep_fires_mem hits t _ _ hmem)
        · by_cases hc :
            (hits.isEmpty || !(hits.any (fun h => h.object.uuid == x.obj.uuid))) = true
          · rw [if_pos hc]
            intro hmem
            rcases List.mem_append.mp hmem with hl | hr
            · refine absurd ?_ hnodup.1
              have hx : e.obj.uuid ∈ List.map (fun k => k.obj.uuid) t :=
                List.mem_map_of_mem (fun k => k.obj.uuid) ht
              rwa [outFire_uuid x _ _ hl] at hx
            · exact ih ht hnodup.2 hr
          · rw [if_neg hc]
            exact ih ht hnodup.2

theorem c6_witness :
    ((⟨⟨7, some ⟨none, some false, some false, []⟩⟩, false⟩ : HoverEntry)
        ∈ [(⟨⟨7, some ⟨none, some false, some false, []⟩⟩, false⟩ : HoverEntry),
           ⟨⟨8, some ⟨none, some false, some false, []⟩⟩, false⟩]
      ∧ ([(⟨⟨7, some ⟨none, some false, some false, []⟩⟩, 1⟩ : Hit)].any
          (fun h => h.object.uuid == 7) = true)
      ∧ ([(⟨⟨7, some ⟨none, some false, some false, []⟩⟩, false⟩ : HoverEntry),
          ⟨⟨8, some ⟨none, some false, some false, []⟩⟩, false⟩].map
            (fun k => k.obj.uuid)).Nodup)
    ∧ C6Concl
        [⟨⟨7, some ⟨none, some false, some false, []⟩⟩, false⟩,
         ⟨⟨8, some ⟨none, some false, some false, []⟩⟩, false⟩]
        [⟨⟨7, some ⟨none, some false, some false, []⟩⟩, 1⟩]
        ⟨⟨7, some ⟨none, some false, some false, []⟩⟩, false⟩ :=
  ⟨⟨by decide, by decide, by decide⟩,
    c6_hover_teardown _ _ _ (by decide) (by decide) (by decide)⟩

/-! ### C9: no dispatch before readiness -/

/-- Invariant: in any state the event layer can reach, the hover map is
empty as long as the readiness flag has not been set (the only code that
books a hover entry, `handlePointerMove`, returns immediately while not
ready, and the flag is never reset). -/
theorem reach_not_ready_hovered (st : CanvasState) (h : Reach st) :
    st.ready = false → st.hovered = [] := by
  induction h with
  | init => intro _; rfl
  | step st e _ ih =>
      intro hready
      cases e with
      | disc name cands =>
          by_cases hst : st.ready
          · simp [applyEvt, handlePointer, hst] at hready
          · simp only [applyEvt, handlePointer, hst, if_neg Bool.false_ne_true] at hready ⊢
            exact ih (by simpa using hst)
      | move cands =>
          by_cases hst : st.ready
          · simp [applyEvt, handlePointerMove, hst] at hready
          · simp only [applyEvt, handlePointerMove, hst, if_neg Bool.false_ne_true] at hready ⊢
            exact ih (by simpa using hst)
      | leave =>
          simp only [applyEvt, handlePointerLeave] at hready ⊢
          rw [ih hready, cancelSweep_nil_entries]
      | gotCapture cands =>
          simp only [applyEvt, handleGotPointerCapture] at hready ⊢
          exact ih hready
      | lostCapture cands =>
          simp only [applyEvt, handleLostPointerCapture] at hready ⊢
          rw [ih hready, cancelSweep_nil_entries]
      | setReady => simp [applyEvt] at hready

/-- C9 counterexample: at the freshly mounted state (ready still false),
a `gotpointercapture` DOM pointer event runs
`state.current.captured = intersect(event, false)` with no ready guard,
so the event layer performs a raycast before readiness; likewise
`lostpointercapture` re-casts inside `handlePointerCancel`.  This
refutes "for every DOM pointer event received while ready is false the
event layer performs no raycast". -/
theorem c9_counterexample :
    initState.ready = false
    ∧ (applyEvt initState
        (Evt.gotCapture [⟨⟨0, some ⟨none, none, none, []⟩⟩, 2⟩])).casts = 1
    ∧ (applyEvt initState
        (Evt.lostCapture [⟨⟨0, some ⟨none, none, none, []⟩⟩, 2⟩])).casts = 1 :=
  ⟨rfl, rfl, rfl⟩

/-- The amended C9 conclusion: while the ready flag is false no event of
any kind invokes any registered object handler (no synthetic event at
all is dispatched, pointerOver/pointerOut included), and no raycast is
performed except by the two pointer-capture bindings, which lack the
ready guard and may each perform one raycast. -/
def C9Concl (st : CanvasState) (e : Evt) : Prop :=
  (applyEvt st e).fired = []
  ∧ (applyEvt st e).casts ≤ (if isCaptureEvt e then 1 else 0)

/-- C9 (amended): in every reachable state with the ready flag false,
processing any DOM event invokes no object handler and dispatches no
synthetic event; the guarded handlers (click, wheel, pointerDown,
pointerUp, pointerMove) and pointer-leave perform no raycast, while the
got/lost-pointer-capture bindings may raycast (they are not guarded). -/
theorem c9_no_dispatch_before_ready (st : CanvasState) (e : Evt)
    (hr : Reach st) (hready : st.ready = false) : C9Concl st e := by
  have hhov : st.hovered = [] := reach_not_ready_hovered st hr hready
  cases e <;>
    simp [C9Concl, applyEvt, handlePointer, handlePointerMove, handlePointerLeave,
      handleGotPointerCapture, handleLostPointerCapture, isCaptureEvt, hready, hhov,
      cancelSweep_nil_entries, selectHits]

theorem c9_witness :
    (Reach initState ∧ initState.ready = false) ∧ C9Concl initState Evt.leave :=
  ⟨⟨Reach.init, rfl⟩, c9_no_dispatch_before_ready initState Evt.leave Reach.init rfl⟩

theorem c3_witness :
    (List.Pairwise (fun p q : Hit => p.distance ≤ q.distance)
        ([⟨⟨1, some ⟨none, none, none, [("click", false)]⟩⟩, 1⟩] ++
          ⟨⟨2, some ⟨none, none, none, [("click", true)]⟩⟩, 4⟩ ::
          [⟨⟨3, some ⟨none, none, none, [("click", false)]⟩⟩, 9⟩])
      ∧ stopsOn "click" ⟨⟨2, some ⟨none, none, none, [("click", true)]⟩⟩, 4⟩ = true
      ∧ ∀ x ∈ [⟨⟨1, some ⟨none, none, none, [("click", false)]⟩⟩, 1⟩],
          stopsOn "click" x = false)
    ∧ C3Concl "click"
        [⟨⟨1, some ⟨none, none, none, [("click", false)]⟩⟩, 1⟩]
        [⟨⟨3, some ⟨none, none, none, [("click", false)]⟩⟩, 9⟩]
        ⟨⟨2, some ⟨none, none, none, [("click", true)]⟩⟩, 4⟩
        [⟨⟨7, some ⟨none, none, none, []⟩⟩, 6⟩, ⟨⟨8, some ⟨none, none, none, []⟩⟩, 2⟩] :=
  ⟨⟨by decide, by decide, by decide⟩,
    c3_dispatch_order "click" _ _ _ _ (by decide) (by decide) (by decide)⟩

/-! ### C4: mount readiness latch (ResizeContainer)

From `ResizeContainer`:
`const ready = useMemo(() => (readyFlag.current = readyFlag.current ||
  (!!size.width && !!size.height)), [size])`, re-run on every measured
size; `typeof window === 'undefined'` renders only the placeholder div;
otherwise the div renders `{ready && <Content .../>}`.  A measurement is
a (width, height) pair; JS truthiness of a measured extent is modelled
as being non-zero.
-/

/-- One re-run of the ready memo over the `readyFlag` ref. -/
def readyStep (r : Bool) (s : Nat × Nat) : Bool :=
  r || (decide (s.1 ≠ 0) && decide (s.2 ≠ 0))

/-- The value of the ready latch after a sequence of measurements
(initially `useRef(false)`). -/
def readyAfter (sizes : List (Nat × Nat)) : Bool :=
  sizes.foldl readyStep false

/-- What `ResizeContainer` renders: only the static placeholder div on
the server, otherwise the container div whose scene `Content` child is
mounted exactly when the latch is set. -/
inductive Markup where
  | ssrPlaceholder
  | frame (contentMounted : Bool)
deriving DecidableEq, Repr

def resizeRender (ssr : Bool) (sizes : List (Nat × Nat)) : Markup :=
  if ssr then Markup.ssrPlaceholder else Markup.frame (readyAfter sizes)

/-- Number of false-to-true transitions of the latch over a measurement
sequence — i.e. how many times the scene `Content` gets (re)mounted. -/
def mountCountAux (r : Bool) : List (Nat × Nat) → Nat
  | [] => 0
  | s :: t =>
      (if r = false ∧ readyStep r s = true then 1 else 0) + mountCountAux (readyStep r s) t

def mountCount (sizes : List (Nat × Nat)) : Nat := mountCountAux false sizes

theorem foldl_readyStep_true (l : List (Nat × Nat)) : l.foldl readyStep true = true := by
  induction l with
  | nil => rfl
  | cons s t ih => simpa [readyStep] using ih

theorem mountCountAux_true (l : List (Nat × Nat)) : mountCountAux true l = 0 := by
  induction l with
  | nil => rfl
  | cons s t ih => simpa [mountCountAux, readyStep] using ih

theorem mountCountAux_le_one (r : Bool) (l : List (Nat × Nat)) : mountCountAux r l ≤ 1 := by
  induction l generalizing r with
  | nil => simp [mountCountAux]
  | cons s t ih =>
      rw [mountCountAux]
      by_cases hr : r = false ∧ readyStep r s = true
      · rw [if_pos hr, hr.2, mountCountAux_true]
      · rw [if_neg hr]
        simpa using ih (readyStep r s)

theorem readyAfter_zero (sizes : List (Nat × Nat))
    (hzero : ∀ s ∈ sizes, s.1 = 0 ∨ s.2 = 0) : readyAfter sizes = false := by
  induction sizes with
  | nil => rfl
  | cons s t ih =>
      have hs : readyStep false s = false := by
        rcases hzero s (by simp) with h | h <;> simp [readyStep, h]
      show (s :: t).foldl readyStep false = false
      rw [List.foldl_cons, hs]
      exact ih (fun x hx => hzero x (by simp [hx]))

/-- The C4 conclusion over a measurement history `sizes` of all-degenerate
sizes followed by a first non-degenerate measurement `(w, h)` and an
arbitrary continuation `more`, and an arbitrary history `any`:
while every measurement is degenerate the latch is down, SSR renders
only the placeholder and the client renders a frame with no scene
content; after the first non-zero measurement the latch is up no matter
what follows (including later zero sizes) and the scene content is
mounted; over the whole history the content mounts exactly once, and
over any history at all it mounts at most once (no remount). -/
def C4Concl (sizes more any : List (Nat × Nat)) (w h : Nat) : Prop :=
  readyAfter sizes = false
  ∧ resizeRender true sizes = Markup.ssrPlaceholder
  ∧ resizeRender false sizes = Markup.frame false
  ∧ readyAfter (sizes ++ (w, h) :: more) = true
  ∧ resizeRender false (sizes ++ (w, h) :: more) = Markup.frame true
  ∧ mountCount (sizes ++ (w, h) :: more) = 1
  ∧ mountCount any ≤ 1

/-- C4: the mount readiness latch is monotone — zero-size measurements
(and SSR) render only placeholder markup with no scene content; the
first non-zero measurement mounts the scene exactly once; and the flag
never reverts, so no history can remount the content a second time. -/
theorem c4_ready_latch (sizes more any : List (Nat × Nat)) (w h : Nat)
    (hzero : ∀ s ∈ sizes, s.1 = 0 ∨ s.2 = 0) (hw : w ≠ 0) (hh : h ≠ 0) :
    C4Concl sizes more any w h := by
  have h0 : readyAfter sizes = false := readyAfter_zero sizes hzero
  have hstep : readyStep false (w, h) = true := by simp [readyStep, hw, hh]
  have h1 : readyAfter (sizes ++ (w, h) :: more) = true := by
    unfold readyAfter
    rw [List.foldl_append]
    show List.foldl readyStep (readyStep (readyAfter sizes) (w, h)) more = true
    rw [h0, hstep, foldl_readyStep_true]
  have hcount : ∀ (pre : List (Nat × Nat)), (∀ s ∈ pre, s.1 = 0 ∨ s.2 = 0) →
      mountCountAux false (pre ++ (w, h) :: more) = 1 := by
    intro pre
    induction pre with
    | nil =>
        intro _
        show mountCountAux false ((w, h) :: more) = 1
        rw [mountCountAux, if_pos ⟨rfl, hstep⟩, hstep, mountCountAux_true]
    | cons s t ih =>
        intro hz
        have hs : readyStep false s = false := by
          rcases hz s (by simp) with h | h <;> simp [readyStep, h]
        show mountCountAux false (s :: (t ++ (w, h) :: more)) = 1
        rw [mountCountAux, hs, if_neg (by simp [hs])]
        simpa using ih (fun x hx => hz x (by simp [hx]))
  refine ⟨h0, rfl, ?_, h1, ?_, hcount sizes hzero, mountCountAux_le_one false any⟩
  · simp [resizeRender, h0]
  · simp [resizeRender, h1]

theorem c4_witness :
    ((∀ s ∈ [((0 : Nat), (0 : Nat)), (0, 600)], s.1 = 0 ∨ s.2 = 0)
      ∧ (800 : Nat) ≠ 0 ∧ (600 : Nat) ≠ 0)
    ∧ C4Concl [(0, 0), (0, 600)] [(0, 0), (800, 600)] [(1, 1), (0, 0), (2, 2)] 800 600 :=
  ⟨by decide, c4_ready_latch _ _ _ 800 600 (by decide) (by decide) (by decide)⟩

/-! ### C7: unmount disposal (test renderer)

From the test renderer's `unmount`:
`const dispose = (obj) => { if (obj.dispose && obj.type !== 'Scene')
  obj.dispose(); ... }` applied to the root's owned state objects
(`state.gl`, `state.raycaster`, `state.camera`, `state`).  A resource is
modelled by whether it currently has a truthy `dispose` method, its
`type` tag, and a marker for having been flagged shared.

Modelled from the spec: the mechanism by which a resource is "explicitly
marked shared" lives in the reconciler bridge, which is not among the
sources; per the spec's ownership rules a shared-flagged resource is one
whose dispose slot has been cleared so the bridge never owns its
disposal — modelled as the well-formedness hypothesis
`sharedFlag = true → hasDispose = false`.
-/

structure Resource where
  hasDispose : Bool
  typeTag : String
  sharedFlag : Bool
deriving DecidableEq, Repr

/-- The guard of the `dispose` helper in `unmount`. -/
def disposeInvoked (o : Resource) : Bool :=
  o.hasDispose && decide (o.typeTag ≠ "Scene")

/-- The owned objects `unmount` runs `dispose` over, in order, restricted
to those on which `obj.dispose()` is actually invoked. -/
def unmountDisposed (gl raycaster camera st : Resource) : List Resource :=
  [gl, raycaster, camera, st].filter disposeInvoked

/-- The C7 conclusion for an owned object `o` of the unmounted root:
`dispose()` is invoked on it iff it defines a dispose method and is not
the scene type; in particular never on a `Scene`-typed object and never
on a shared-flagged resource. -/
def C7Concl (gl raycaster camera st o : Resource) : Prop :=
  (o ∈ unmountDisposed gl raycaster camera st
      ↔ (o.hasDispose = true ∧ o.typeTag ≠ "Scene"))
  ∧ (o.typeTag = "Scene" → o ∉ unmountDisposed gl raycaster camera st)
  ∧ (o.sharedFlag = true → o ∉ unmountDisposed gl raycaster camera st)

/-- C7: unmounting a root invokes dispose() on every owned object that
defines a dispose method, except on objects of type Scene and on
resources flagged shared. -/
theorem c7_unmount_disposal (gl raycaster camera st o : Resource)
    (hshared : o.sharedFlag = true → o.hasDispose = false)
    (ho : o ∈ [gl, raycaster, camera, st]) :
    C7Concl gl raycaster camera st o := by
  have hmem : o ∈ unmountDisposed gl raycaster camera st
      ↔ (o.hasDispose = true ∧ o.typeTag ≠ "Scene") := by
    unfold unmountDisposed
    rw [List.mem_filter]
    unfold disposeInvoked
    simp [ho]
  refine ⟨hmem, ?_, ?_⟩
  · intro hscene hmem2
    exact absurd hscene (by simpa using (hmem.mp hmem2).2)
  · intro hsh hmem2
    have := (hmem.mp hmem2).1
    rw [hshared hsh] at this
    exact Bool.false_ne_true this

theorem c7_witness :
    (((⟨true, "WebGLRenderer", false⟩ : Resource).sharedFlag = true →
        (⟨true, "WebGLRenderer", false⟩ : Resource).hasDispose = false)
      ∧ (⟨true, "WebGLRenderer", false⟩ : Resource)
          ∈ [⟨true, "WebGLRenderer", false⟩, ⟨false, "Raycaster", false⟩,
             ⟨true, "PerspectiveCamera", false⟩, ⟨false, "Scene", false⟩])
    ∧ C7Concl ⟨true, "WebGLRenderer", false⟩ ⟨false, "Raycaster", false⟩
        ⟨true, "PerspectiveCamera", false⟩ ⟨false, "Scene", false⟩
        ⟨true, "WebGLRenderer", false⟩ :=
  ⟨⟨by decide, by decide⟩,
    c7_unmount_disposal _ _ _ _ _ (by decide) (by decide)⟩

/-! ### C8: context-guarded hooks

From `hooks.ts`: the private `useContext` wrapper throws
`if (!('subscribe' in result))` with a descriptive message; `useFrame`,
`useThree` and `useUpdate` all read the shared canvas context through
it, so each throws synchronously at call time outside a mount and never
for this reason inside one.

Modelled from the spec: the canvas module owning `stateContext` is not
among the sources; per the spec a context value seen outside an active
mount lacks a live subscription interface, so the default context is
modelled as `hasSubscribe = false`, while inside an active mount the
provider supplies the real state bundle with its subscription interface
(`hasSubscribe = true`).
-/

/-- The shared canvas context as the hooks see it: whether the value
carries a live `subscribe` interface. -/
structure SharedCanvasContext where
  hasSubscribe : Bool
deriving DecidableEq, Repr

/-- The exact message of the hook-misuse error thrown by `useContext`. -/
def hooksErrorMessage : String :=
  "⚡️ react-three-fiber hooks can only be used within the Canvas component! https://github.com/pmndrs/react-three-fiber/blob/master/markdown/api.md#hooks"

/-- The private `useContext` wrapper of `hooks.ts`: throws the
hook-misuse error when the context value has no `subscribe` member. -/
def useContext (ctx : SharedCanvasContext) : Except String SharedCanvasContext :=
  if ctx.hasSubscribe then Except.ok ctx else Except.error hooksErrorMessage

/-- `useFrame`: reads `subscribe` off the guarded context (the
subscription itself is an effect and irrelevant to the throw). -/
def useFrame (ctx : SharedCanvasContext) : Except String Unit :=
  (useContext ctx).map (fun _ => ())

/-- `useThree`: returns the guarded context value. -/
def useThree (ctx : SharedCanvasContext) : Except String SharedCanvasContext :=
  useContext ctx

/-- `useUpdate`: reads `invalidate` off the guarded context. -/
def useUpdate (ctx : SharedCanvasContext) : Except String Unit :=
  (useContext ctx).map (fun _ => ())

/-- The context value outside an active Canvas mount (modelled from the
spec: no live subscription interface). -/
def outsideMountContext : SharedCanvasContext := ⟨false⟩

/-- The C8 conclusion: outside an active mount each context-dependent
hook throws the descriptive hook-misuse error synchronously; on any
context carrying the live subscription interface none of them throws. -/
def C8Concl (ctx : SharedCanvasContext) : Prop :=
  useFrame outsideMountContext = Except.error hooksErrorMessage
  ∧ useThree outsideMountContext = Except.error hooksErrorMessage
  ∧ useUpdate outsideMountContext = Except.error hooksErrorMessage
  ∧ hooksErrorMessage ≠ ""
  ∧ useFrame ctx = Except.ok ()
  ∧ useThree ctx = Except.ok ctx
  ∧ useUpdate ctx = Except.ok ()

/-- C8: invoking useFrame/useThree/useUpdate outside an active Canvas
mount throws synchronously with a descriptive message; inside an active
mount (context with a live subscription interface) they never throw for
this reason. -/
theorem c8_hook_guard (ctx : SharedCanvasContext)
    (hctx : ctx.hasSubscribe = true) : C8Concl ctx := by
  refine ⟨rfl, rfl, rfl, by decide, ?_, ?_, ?_⟩ <;>
    simp [useFrame, useThree, useUpdate, useContext, Except.map, hctx]

theorem c8_witness :
    ((⟨true⟩ : SharedCanvasContext).hasSubscribe = true)
    ∧ C8Concl ⟨true⟩ :=
  ⟨rfl, c8_hook_guard ⟨true⟩ rfl⟩
